import Mathlib

/-!
Verification of the attribute reconciliation engine of a declarative LDAP
group provider.  The definitions below are a shallow embedding of the Go
source in `internal/provider/resource_ldap_group.go`: pure functions mirror
the Go functions, the Terraform resource data is an explicit state record,
and the directory connection is replaced by explicit search outcomes and
emitted protocol calls.
-/

set_option maxHeartbeats 1000000

namespace LdapGroup

/-- A wire-format directory attribute: a name and its ordered values
(`ldap.EntryAttribute`). -/
structure WireAttribute where
  name : String
  values : List String
deriving DecidableEq, Repr

/-- A search-result entry is its list of wire attributes (`ldap.Entry`). -/
abbrev Entry := List WireAttribute

/-- `entry.GetAttributeValues(name)`: values of the first attribute with the
given name, `[]` when absent. -/
def getAttributeValues (e : Entry) (name : String) : List String :=
  match e.find? (fun a => a.name == name) with
  | some a => a.values
  | none => []

/-- `entry.GetAttributeValue(name)`: the first value of the attribute,
`""` when absent. -/
def getAttributeValue (e : Entry) (name : String) : String :=
  (getAttributeValues e name).headD ""

/-- The three LDAP modify operations (`ldap.AddAttribute`,
`ldap.ReplaceAttribute`, `ldap.DeleteAttribute`). -/
inductive ChangeOp
  | addOp
  | replaceOp
  | deleteOp
deriving DecidableEq, Repr

/-- One change of an `ldap.ModifyRequest`: operation plus the partial
attribute (`Type`, `Vals`) it carries. -/
structure Change where
  operation : ChangeOp
  attrType : String
  vals : List String
deriving DecidableEq, Repr

/-- `updateLDAPAttributeSet` (source lines 492–510): for a changed
`schema.Set` attribute it emits one Add change per element of
`newSet.Difference(oldSet)` and one Delete change per element of
`oldSet.Difference(newSet)`, each carrying the single value.  The Go set
iteration order is unspecified; we enumerate the set differences in
lexicographic order with `Finset.sort`. -/
def updateLDAPAttributeSet (ldapAttributeName : String)
    (oldSet newSet : Finset String) : List Change :=
  (((newSet \ oldSet).sort (· ≤ ·)).map
      (fun s => Change.mk ChangeOp.addOp ldapAttributeName [s]))
    ++ (((oldSet \ newSet).sort (· ≤ ·)).map
      (fun s => Change.mk ChangeOp.deleteOp ldapAttributeName [s]))

/-- Effect of one modify change on a directory store that holds the value
set of one attribute: Add unions the values in, Delete removes them,
Replace substitutes them. -/
def applyChange (store : Finset String) (c : Change) : Finset String :=
  match c.operation with
  | ChangeOp.addOp => store ∪ c.vals.toFinset
  | ChangeOp.deleteOp => store \ c.vals.toFinset
  | ChangeOp.replaceOp => c.vals.toFinset

/-- Apply a list of modify changes to a store, in order. -/
def applyChanges (store : Finset String) (cs : List Change) : Finset String :=
  cs.foldl applyChange store

lemma applyChanges_adds (name : String) (l : List String) (s : Finset String) :
    applyChanges s (l.map (fun v => Change.mk ChangeOp.addOp name [v]))
      = s ∪ l.toFinset := by
  induction l generalizing s with
  | nil => simp [applyChanges]
  | cons a l ih =>
      simp only [List.map_cons, applyChanges, List.foldl_cons] at *
      rw [ih]
      ext x
      simp [applyChange]
      tauto

lemma applyChanges_deletes (name : String) (l : List String) (s : Finset String) :
    applyChanges s (l.map (fun v => Change.mk ChangeOp.deleteOp name [v]))
      = s \ l.toFinset := by
  induction l generalizing s with
  | nil => simp [applyChanges]
  | cons a l ih =>
      simp only [List.map_cons, applyChanges, List.foldl_cons] at *
      rw [ih]
      ext x
      simp [applyChange]
      tauto

lemma applyChanges_append (s : Finset String) (cs ds : List Change) :
    applyChanges s (cs ++ ds) = applyChanges (applyChanges s cs) ds := by
  simp [applyChanges, List.foldl_append]

lemma count_map_singleton_mk (op : ChangeOp) (name : String)
    (l : List String) (x : String) (hnd : l.Nodup) :
    (l.map (fun v => Change.mk op name [v])).count (Change.mk op name [x])
      = if x ∈ l then 1 else 0 := by
  have hinj : Function.Injective (fun v => Change.mk op name [v]) := by
    intro a b h
    simpa using h
  rw [List.count_map_of_injective l _ hinj]
  by_cases hx : x ∈ l
  · simp [hx, List.count_eq_one_of_mem hnd hx]
  · simp [hx, List.count_eq_zero_of_not_mem hx]

lemma count_map_singleton_mk_ne (op op' : ChangeOp) (name : String)
    (l : List String) (x : String) (hne : op ≠ op') :
    (l.map (fun v => Change.mk op' name [v])).count (Change.mk op name [x]) = 0 := by
  apply List.count_eq_zero_of_not_mem
  intro h
  obtain ⟨v, _, hv⟩ := List.mem_map.mp h
  simp only [Change.mk.injEq] at hv
  exact hne hv.1.symm

/-- C1: for a well-known multi-valued attribute with previous value set `P`
and desired value set `D`, `updateLDAPAttributeSet` emits exactly one Add
change per element of `D \ P`, exactly one Delete change per element of
`P \ D`, no change touching a value lying in both sets, and applying the
emitted changes to a store holding `P` yields exactly `D`. -/
theorem updateLDAPAttributeSet_delta (name : String) (P D : Finset String) :
    (∀ x, (updateLDAPAttributeSet name P D).count
        (Change.mk ChangeOp.addOp name [x]) = if x ∈ D \ P then 1 else 0)
  ∧ (∀ x, (updateLDAPAttributeSet name P D).count
        (Change.mk ChangeOp.deleteOp name [x]) = if x ∈ P \ D then 1 else 0)
  ∧ (∀ x, x ∈ P → x ∈ D →
        ∀ c ∈ updateLDAPAttributeSet name P D, x ∉ c.vals)
  ∧ applyChanges P (updateLDAPAttributeSet name P D) = D := by
  refine ⟨?_, ?_, ?_, ?_⟩
  · intro x
    rw [updateLDAPAttributeSet, List.count_append,
      count_map_singleton_mk ChangeOp.addOp name _ x (Finset.sort_nodup _ _),
      count_map_singleton_mk_ne ChangeOp.addOp ChangeOp.deleteOp name _ x
        (by simp)]
    simp [Finset.mem_sort]
  · intro x
    rw [updateLDAPAttributeSet, List.count_append,
      count_map_singleton_mk_ne ChangeOp.deleteOp ChangeOp.addOp name _ x
        (by simp),
      count_map_singleton_mk ChangeOp.deleteOp name _ x (Finset.sort_nodup _ _)]
    simp [Finset.mem_sort]
  · intro x hxP hxD c hc hx
    rw [updateLDAPAttributeSet, List.mem_append] at hc
    rcases hc with hc | hc
    · obtain ⟨v, hv, rfl⟩ := List.mem_map.mp hc
      rw [Finset.mem_sort, Finset.mem_sdiff] at hv
      simp only [List.mem_singleton] at hx
      exact hv.2 (hx ▸ hxP)
    · obtain ⟨v, hv, rfl⟩ := List.mem_map.mp hc
      rw [Finset.mem_sort, Finset.mem_sdiff] at hv
      simp only [List.mem_singleton] at hx
      exact hv.2 (hx ▸ hxD)
  · rw [updateLDAPAttributeSet, applyChanges_append, applyChanges_adds,
      applyChanges_deletes, Finset.sort_toFinset, Finset.sort_toFinset]
    ext x
    simp only [Finset.mem_sdiff, Finset.mem_union]
    tauto

/-- Witness for C1, the spec scenario on `memberUid`: previous
`{"alice","bob"}`, desired `{"bob","carol"}` — applying the emitted changes
yields exactly the desired set, and there is exactly one Add change for
`"carol"` and exactly one Delete change for `"alice"`. -/
theorem updateLDAPAttributeSet_delta_witness :
    applyChanges {"alice", "bob"}
        (updateLDAPAttributeSet "memberUid" {"alice", "bob"} {"bob", "carol"})
      = {"bob", "carol"}
  ∧ (updateLDAPAttributeSet "memberUid" {"alice", "bob"} {"bob", "carol"}).count
        (Change.mk ChangeOp.addOp "memberUid" ["carol"]) = 1
  ∧ (updateLDAPAttributeSet "memberUid" {"alice", "bob"} {"bob", "carol"}).count
        (Change.mk ChangeOp.deleteOp "memberUid" ["alice"]) = 1 := by
  have h := updateLDAPAttributeSet_delta "memberUid" {"alice", "bob"}
    {"bob", "carol"}
  refine ⟨h.2.2.2, ?_, ?_⟩
  · rw [h.1 "carol", if_pos (by decide)]
  · rw [h.2.1 "alice", if_pos (by decide)]

/-- The attribute names skipped by the generic-bag loop of
`resourceLDAPGroupRead` (source lines 281–283): already-handled or system
attributes. -/
def skippedName (name : String) : Bool :=
  name == "objectClass" || name == "cn" || name == "description" ||
  name == "gidNumber" || name == "memberUid" || name == "uniqueMember" ||
  name == "memberURL" || name == "member"

/-- `strings.HasPrefix`, embedded on the character lists of the strings. -/
def strStartsWith (s p : String) : Bool :=
  p.data.isPrefixOf s.data

/-- The RDN test of the generic-bag loop (source lines 287–294): a
single-valued attribute whose rendered `name=value` string is a prefix of
the DN is treated as the RDN. -/
def isRDNOf (dn : String) (a : WireAttribute) : Bool :=
  a.values.length == 1
    && strStartsWith dn (a.name ++ "=" ++ a.values.headD "")

/-- `schema.Set.Add` on the attributes set: insert the entry unless an
equal entry is already present (`attributeHash` hashes the whole singleton
map, so equality of entries is structural equality of the pair). -/
def setAdd (s : List (String × String)) (p : String × String) :
    List (String × String) :=
  if p ∈ s then s else s ++ [p]

/-- One iteration of the generic-attribute decode loop of
`resourceLDAPGroupRead` (source lines 277–306): skip the attribute when its
name is already handled or when it is the RDN, otherwise add one singleton
entry per value. -/
def bagStep (dn : String) (s : List (String × String)) (a : WireAttribute) :
    List (String × String) :=
  if skippedName a.name then s
  else if isRDNOf dn a then s
  else a.values.foldl (fun t v => setAdd t (a.name, v)) s

/-- The generic-attribute decode of `resourceLDAPGroupRead` (source lines
274–306), producing the `attributes` set. -/
def readGenericBag (dn : String) (attrs : List WireAttribute) :
    List (String × String) :=
  attrs.foldl (bagStep dn) []

lemma mem_setAdd (s : List (String × String)) (p q : String × String) :
    q ∈ setAdd s p ↔ q ∈ s ∨ q = p := by
  unfold setAdd
  split
  · constructor
    · intro h; exact Or.inl h
    · rintro (h | rfl)
      · exact h
      · assumption
  · simp

lemma nodup_setAdd (s : List (String × String)) (p : String × String)
    (h : s.Nodup) : (setAdd s p).Nodup := by
  unfold setAdd
  split
  · exact h
  · rename_i hp
    rw [List.nodup_append]
    refine ⟨h, List.nodup_singleton p, fun x hx hx' => ?_⟩
    simp only [List.mem_singleton] at hx'
    exact hp (hx' ▸ hx)

lemma mem_foldl_setAdd (name : String) (vs : List String)
    (s : List (String × String)) (q : String × String) :
    q ∈ vs.foldl (fun t v => setAdd t (name, v)) s
      ↔ q ∈ s ∨ (q.1 = name ∧ q.2 ∈ vs) := by
  induction vs generalizing s with
  | nil => simp
  | cons v vs ih =>
      rw [List.foldl_cons, ih, mem_setAdd]
      constructor
      · rintro (⟨h | rfl⟩ | ⟨h1, h2⟩)
        · exact Or.inl h
        · exact Or.inr ⟨rfl, by simp⟩
        · exact Or.inr ⟨h1, by simp [h2]⟩
      · rintro (h | ⟨h1, h2⟩)
        · exact Or.inl (Or.inl h)
        · rcases List.mem_cons.mp h2 with h2 | h2
          · refine Or.inl (Or.inr ?_)
            cases q
            simp_all
          · exact Or.inr ⟨h1, h2⟩

lemma nodup_foldl_setAdd (name : String) (vs : List String)
    (s : List (String × String)) (h : s.Nodup) :
    (vs.foldl (fun t v => setAdd t (name, v)) s).Nodup := by
  induction vs generalizing s with
  | nil => exact h
  | cons v vs ih => exact ih _ (nodup_setAdd _ _ h)

lemma count_eq_one_of_nodup_mem {α : Type} [BEq α] [LawfulBEq α]
    {l : List α} {a : α} (h : l.Nodup) (ha : a ∈ l) : l.count a = 1 := by
  induction l with
  | nil => simp at ha
  | cons b l ih =>
      rw [List.count_cons]
      rcases List.mem_cons.mp ha with rfl | ha'
      · rw [List.count_eq_zero.mpr (List.nodup_cons.mp h).1]
        simp
      · have hne : a ≠ b := by
          rintro rfl
          exact (List.nodup_cons.mp h).1 ha'
        rw [ih (List.nodup_cons.mp h).2 ha']
        simp [Ne.symm hne]

lemma mem_bagStep (dn : String) (s : List (String × String))
    (a : WireAttribute) (q : String × String) :
    q ∈ bagStep dn s a
      ↔ q ∈ s ∨ (skippedName a.name = false ∧ isRDNOf dn a = false
          ∧ q.1 = a.name ∧ q.2 ∈ a.values) := by
  unfold bagStep
  by_cases h1 : skippedName a.name
  · simp [h1]
  · by_cases h2 : isRDNOf dn a
    · simp [h1, h2]
    · simp [h1, h2, mem_foldl_setAdd]

lemma nodup_bagStep (dn : String) (s : List (String × String))
    (a : WireAttribute) (hs : s.Nodup) : (bagStep dn s a).Nodup := by
  unfold bagStep
  split
  · exact hs
  · split
    · exact hs
    · exact nodup_foldl_setAdd _ _ _ hs

/-- Membership in the generic bag produced by the read loop: exactly the
`(name, value)` pairs of attributes passing the name filter and the RDN
filter. -/
lemma mem_readGenericBag (dn : String) (attrs : List WireAttribute)
    (q : String × String) :
    q ∈ readGenericBag dn attrs
      ↔ ∃ a ∈ attrs, skippedName a.name = false ∧ isRDNOf dn a = false
          ∧ q.1 = a.name ∧ q.2 ∈ a.values := by
  have key : ∀ (l : List WireAttribute) (s : List (String × String)),
      q ∈ l.foldl (bagStep dn) s
        ↔ q ∈ s ∨ ∃ a ∈ l, skippedName a.name = false ∧ isRDNOf dn a = false
            ∧ q.1 = a.name ∧ q.2 ∈ a.values := by
    intro l
    induction l with
    | nil => simp
    | cons a l ih =>
        intro s
        rw [List.foldl_cons, ih, mem_bagStep]
        simp only [List.mem_cons]
        constructor
        · rintro ((h | h) | ⟨b, hb, h⟩)
          · exact Or.inl h
          · exact Or.inr ⟨a, Or.inl rfl, h⟩
          · exact Or.inr ⟨b, Or.inr hb, h⟩
        · rintro (h | ⟨b, rfl | hb, h⟩)
          · exact Or.inl (Or.inl h)
          · exact Or.inl (Or.inr h)
          · exact Or.inr ⟨b, hb, h⟩
  rw [readGenericBag, key]
  simp

lemma nodup_readGenericBag (dn : String) (attrs : List WireAttribute) :
    (readGenericBag dn attrs).Nodup := by
  have key : ∀ (l : List WireAttribute) (s : List (String × String)),
      s.Nodup → (l.foldl (bagStep dn) s).Nodup := by
    intro l
    induction l with
    | nil => intro s hs; exact hs
    | cons a l ih =>
        intro s hs
        rw [List.foldl_cons]
        exact ih _ (nodup_bagStep dn s a hs)
  exact key attrs [] List.nodup_nil

/-- C4: during read, a single-valued wire attribute whose rendered
`name=value` string is a prefix of the DN contributes no `(name, value)`
entry to the generic attribute bag (attribute names within one wire entry
are unique, as the directory protocol guarantees). -/
theorem readGenericBag_excludes_rdn (dn : String) (attrs : List WireAttribute)
    (n v : String)
    (hnodup : (attrs.map WireAttribute.name).Nodup)
    (hmem : WireAttribute.mk n [v] ∈ attrs)
    (hpref : strStartsWith dn (n ++ "=" ++ v) = true) :
    (n, v) ∉ readGenericBag dn attrs := by
  intro h
  rw [mem_readGenericBag] at h
  obtain ⟨a, ha, hskip, hrdn, hn, hv⟩ := h
  have haeq : a = WireAttribute.mk n [v] :=
    List.inj_on_of_nodup_map hnodup ha hmem hn.symm
  rw [haeq] at hrdn
  simp [isRDNOf, hpref] at hrdn

/-- Witness for C4: the spec example — DN
`cn=mygroup,ou=users,dc=example,dc=com` with raw attribute `cn=mygroup`
leaves no `(cn, mygroup)` entry in the bag; likewise for an RDN whose
attribute name is not otherwise skipped (`ou=users`). -/
theorem readGenericBag_excludes_rdn_witness :
    ("cn", "mygroup") ∉ readGenericBag "cn=mygroup,ou=users,dc=example,dc=com"
      [WireAttribute.mk "cn" ["mygroup"], WireAttribute.mk "mail" ["a@x.com"]]
  ∧ ("ou", "users") ∉ readGenericBag "ou=users,dc=example,dc=com"
      [WireAttribute.mk "ou" ["users"], WireAttribute.mk "mail" ["a@x.com"]] :=
  ⟨readGenericBag_excludes_rdn "cn=mygroup,ou=users,dc=example,dc=com"
      [WireAttribute.mk "cn" ["mygroup"], WireAttribute.mk "mail" ["a@x.com"]]
      "cn" "mygroup" (by decide) (by decide) (by decide),
   readGenericBag_excludes_rdn "ou=users,dc=example,dc=com"
      [WireAttribute.mk "ou" ["users"], WireAttribute.mk "mail" ["a@x.com"]]
      "ou" "users" (by decide) (by decide) (by decide)⟩

/-- C5: during read, every generic-bag entry's name lies outside the skip
list (objectClass, cn, description, gidNumber, memberUid, uniqueMember,
memberURL, member), the bag holds no duplicate entries, and every wire
attribute passing the name filter and the RDN filter contributes exactly
one singleton entry per value, each entry keyed by its own attribute
name. -/
theorem readGenericBag_filter_policy (dn : String)
    (attrs : List WireAttribute) :
    (readGenericBag dn attrs).Nodup
  ∧ (∀ p ∈ readGenericBag dn attrs, skippedName p.1 = false)
  ∧ (∀ a ∈ attrs, skippedName a.name = false → isRDNOf dn a = false →
      ∀ v ∈ a.values,
        (a.name, v) ∈ readGenericBag dn attrs
      ∧ (readGenericBag dn attrs).count (a.name, v) = 1) := by
  refine ⟨nodup_readGenericBag dn attrs, ?_, ?_⟩
  · intro p hp
    rw [mem_readGenericBag] at hp
    obtain ⟨a, _, hskip, _, hn, _⟩ := hp
    rw [hn]
    exact hskip
  · intro a ha hskip hrdn v hv
    have hmem : (a.name, v) ∈ readGenericBag dn attrs := by
      rw [mem_readGenericBag]
      exact ⟨a, ha, hskip, hrdn, rfl, hv⟩
    exact ⟨hmem,
      count_eq_one_of_nodup_mem (nodup_readGenericBag dn attrs) hmem⟩

/-- Witness for C5: a two-valued `mail` attribute contributes exactly one
`(mail, value)` entry per value. -/
theorem readGenericBag_filter_policy_witness :
    ("mail", "a@x.com") ∈ readGenericBag "cn=g,dc=example,dc=com"
        [WireAttribute.mk "mail" ["a@x.com", "b@x.com"]]
  ∧ (readGenericBag "cn=g,dc=example,dc=com"
        [WireAttribute.mk "mail" ["a@x.com", "b@x.com"]]).count
        ("mail", "a@x.com") = 1 :=
  (readGenericBag_filter_policy "cn=g,dc=example,dc=com"
      [WireAttribute.mk "mail" ["a@x.com", "b@x.com"]]).2.2
    (WireAttribute.mk "mail" ["a@x.com", "b@x.com"]) (by simp)
    (by decide) (by decide) "a@x.com" (by simp)

/-- `strconv.Atoi` on the digits of the string. -/
def digitsToNat (cs : List Char) : Option Nat :=
  cs.foldl
    (fun acc c =>
      match acc with
      | none => none
      | some n =>
          if c.isDigit then some (n * 10 + (c.toNat - Char.toNat '0'))
          else none)
    (some 0)

/-- Go `strconv.Atoi`, embedded on the character list: an optional sign
followed by at least one decimal digit. -/
def atoi (s : String) : Option Int :=
  match s.data with
  | [] => none
  | '-' :: rest =>
      if rest.isEmpty then none
      else (digitsToNat rest).map (fun n => -(n : Int))
  | '+' :: rest =>
      if rest.isEmpty then none
      else (digitsToNat rest).map (fun n => (n : Int))
  | cs => (digitsToNat cs).map (fun n => (n : Int))

/-- The Terraform resource data of an `ldap_group`, with the resource id
made explicit.  Scalars carry their Go zero value when unset, mirroring
the `GetOk` convention. -/
structure GroupState where
  id : String
  dn : String
  description : String
  gid_number : Int
  member : List String
  member_uid : List String
  unique_member : List String
  member_url : List String
  attributes : List (String × String)
  object_classes : List String
deriving DecidableEq, Repr

/-- Errors a read can surface: a protocol failure with its LDAP result
code, or the gidNumber conversion failure. -/
inductive ReadError
  | protocolErr (resultCode : Nat)
  | parseErr (msg : String)
deriving DecidableEq, Repr

/-- Outcome of the base-object search issued by the read: the entry list,
or a protocol error with its result code. -/
inductive SearchOutcome
  | found (entries : List Entry)
  | searchErr (resultCode : Nat)
deriving DecidableEq, Repr

/-- `ldap.LDAPResultNoSuchObject`. -/
def LDAPResultNoSuchObject : Nat := 32

/-- The entry-processing portion of `resourceLDAPGroupRead` (source lines
231–311): decode the well-known attributes and the generic bag into the
resource state.  Source line 271 assigns the previously read `memberURL`
values when setting the `member` state. -/
def readEntryIntoState (st : GroupState) (entry : Entry) :
    Except ReadError GroupState :=
  let descriptionVal := getAttributeValue entry "description"
  let gidNumberStr := getAttributeValue entry "gidNumber"
  let gidParsed : Except ReadError (Option Int) :=
    if gidNumberStr ≠ "" then
      match atoi gidNumberStr with
      | some n => Except.ok (some n)
      | none =>
          Except.error (ReadError.parseErr "unable to convert gidNumber to int")
    else Except.ok none
  match gidParsed with
  | Except.error e => Except.error e
  | Except.ok gidOpt =>
      let objectClasses := getAttributeValues entry "objectClass"
      let memberUids := getAttributeValues entry "memberUid"
      let uniqueMembers := getAttributeValues entry "uniqueMember"
      let memberURLs := getAttributeValues entry "memberURL"
      let members := getAttributeValues entry "member"
      Except.ok { st with
        description := descriptionVal
        gid_number := gidOpt.getD st.gid_number
        object_classes :=
          if objectClasses.length > 0 then objectClasses else st.object_classes
        member_uid :=
          if memberUids.length > 0 then memberUids else st.member_uid
        unique_member :=
          if uniqueMembers.length > 0 then uniqueMembers else st.unique_member
        member_url :=
          if memberURLs.length > 0 then memberURLs else st.member_url
        member :=
          if members.length > 0 then memberURLs else st.member
        attributes := readGenericBag st.dn entry }

/-- `resourceLDAPGroupRead` (source lines 194–315), with the search outcome
passed in place of the live connection: a no-such-object failure or an
empty result clears the resource id and succeeds; any other search failure
is surfaced unmodified. -/
def resourceLDAPGroupRead (st : GroupState) (outcome : SearchOutcome) :
    Except ReadError GroupState :=
  match outcome with
  | SearchOutcome.searchErr code =>
      if code = LDAPResultNoSuchObject then Except.ok { st with id := "" }
      else Except.error (ReadError.protocolErr code)
  | SearchOutcome.found [] => Except.ok { st with id := "" }
  | SearchOutcome.found (entry :: _) => readEntryIntoState st entry

/-- C9: a read whose search fails with the no-such-object result code, or
whose search returns zero entries, clears the resource identity and
returns success; every other search failure is returned to the caller
unmodified. -/
theorem read_not_found_clears_state (st : GroupState) :
    resourceLDAPGroupRead st (SearchOutcome.searchErr LDAPResultNoSuchObject)
      = Except.ok { st with id := "" }
  ∧ resourceLDAPGroupRead st (SearchOutcome.found [])
      = Except.ok { st with id := "" }
  ∧ (∀ code, code ≠ LDAPResultNoSuchObject →
      resourceLDAPGroupRead st (SearchOutcome.searchErr code)
        = Except.error (ReadError.protocolErr code)) := by
  refine ⟨rfl, rfl, ?_⟩
  intro code hcode
  simp [resourceLDAPGroupRead, hcode]

/-- Witness for C9: an `invalidCredentials` (49) search failure on a
concrete state is surfaced unmodified. -/
theorem read_not_found_clears_state_witness :
    resourceLDAPGroupRead
        (GroupState.mk "cn=g,dc=example,dc=com" "cn=g,dc=example,dc=com" "" 0
          [] [] [] [] [] [])
        (SearchOutcome.searchErr 49)
      = Except.error (ReadError.protocolErr 49) :=
  (read_not_found_clears_state
      (GroupState.mk "cn=g,dc=example,dc=com" "cn=g,dc=example,dc=com" "" 0
        [] [] [] [] [] [])).2.2 49 (by decide)

/-- C3 divergence: at an entry carrying both `member` and `memberURL`
values, the read path stores the `memberURL` values in the `member` state
(source line 271) instead of the entry's own `member` values. -/
theorem read_member_assigned_memberURL_values :
    (resourceLDAPGroupRead
        (GroupState.mk "cn=g,dc=example,dc=com" "cn=g,dc=example,dc=com" "" 0
          [] [] [] [] [] [])
        (SearchOutcome.found
          [[WireAttribute.mk "member" ["cn=alice,dc=example,dc=com"],
            WireAttribute.mk "memberURL"
              ["ldap:///ou=users,dc=example,dc=com??sub"]]])).map
        GroupState.member
      = Except.ok ["ldap:///ou=users,dc=example,dc=com??sub"]
  ∧ getAttributeValues
        [WireAttribute.mk "member" ["cn=alice,dc=example,dc=com"],
         WireAttribute.mk "memberURL"
           ["ldap:///ou=users,dc=example,dc=com??sub"]] "member"
      = ["cn=alice,dc=example,dc=com"]
  ∧ (["ldap:///ou=users,dc=example,dc=com??sub"] : List String)
      ≠ ["cn=alice,dc=example,dc=com"] :=
  ⟨rfl, rfl, by decide⟩

/-- Modelled from the spec: `computeDeltas`, the generic-bag delta used by
`resourceLDAPGroupUpdate`, is defined in `resource_ldap_object.go`, a file
of this repository that is not among the provided sources.  Per the spec
(§4.3), `added = desired − previous` and `removed = previous − desired` by
entry identity, and there is no entry-level changed category. -/
def computeDeltas (previous desired : Finset (String × String)) :
    Finset (String × String) × Finset (String × String)
      × Finset (String × String) :=
  (desired \ previous, ∅, previous \ desired)

/-- C2: the computed bag delta contains only added entries (in desired, not
previous) and removed entries (in previous, not desired); the changed
component is empty, a value change for a name shows up as one added and
one removed entry with that name, and removing `removed` from the previous
bag and adding `added` reconstructs the desired bag. -/
theorem computeDeltas_added_removed_only (P D : Finset (String × String)) :
    (∀ p ∈ (computeDeltas P D).1, p ∈ D ∧ p ∉ P)
  ∧ (computeDeltas P D).2.1 = ∅
  ∧ (∀ p ∈ (computeDeltas P D).2.2, p ∈ P ∧ p ∉ D)
  ∧ (∀ n v v', (n, v) ∈ P → (n, v) ∉ D → (n, v') ∈ D → (n, v') ∉ P →
      (n, v') ∈ (computeDeltas P D).1 ∧ (n, v) ∈ (computeDeltas P D).2.2)
  ∧ (P \ (computeDeltas P D).2.2) ∪ (computeDeltas P D).1 = D := by
  refine ⟨?_, rfl, ?_, ?_, ?_⟩
  · intro p hp
    simpa [computeDeltas, Finset.mem_sdiff] using hp
  · intro p hp
    simpa [computeDeltas, Finset.mem_sdiff] using hp
  · intro n v v' h1 h2 h3 h4
    exact ⟨Finset.mem_sdiff.mpr ⟨h3, h4⟩, Finset.mem_sdiff.mpr ⟨h1, h2⟩⟩
  · ext x
    simp only [computeDeltas, Finset.mem_sdiff, Finset.mem_union]
    tauto

/-- Witness for C2: a changed value for `mail` appears as one added entry
with the new value and one removed entry with the old value. -/
theorem computeDeltas_added_removed_only_witness :
    ("mail", "b@x.com")
      ∈ (computeDeltas {("mail", "a@x.com")} {("mail", "b@x.com")}).1
  ∧ ("mail", "a@x.com")
      ∈ (computeDeltas {("mail", "a@x.com")} {("mail", "b@x.com")}).2.2 :=
  (computeDeltas_added_removed_only {("mail", "a@x.com")}
      {("mail", "b@x.com")}).2.2.2.1
    "mail" "a@x.com" "b@x.com" (by decide) (by decide) (by decide) (by decide)

/-- Terraform `GetOk` on an int field: present iff nonzero. -/
def getOkInt (n : Int) : Bool := n != 0

/-- Terraform `GetOk` on a string field: present iff nonempty. -/
def getOkString (s : String) : Bool := s != ""

/-- A required-attribute violation: the missing attribute together with the
object class requiring it (the Go code renders it as the message
`missing required attribute 'gid_number' for objectClass 'posixGroup'`). -/
structure ValidationError where
  attributeName : String
  objectClass : String
deriving DecidableEq, Repr

/-- `validateObjectClasses` (source lines 476–489): for each object class,
check its required attributes — `posixGroup` requires a `gid_number` that
`GetOk` reports as present.  All violations are accumulated. -/
def validateObjectClasses (objectClasses : List String) (st : GroupState) :
    List ValidationError :=
  objectClasses.foldl
    (fun errs oc =>
      if oc = "posixGroup" then
        if getOkInt st.gid_number then errs
        else errs ++ [ValidationError.mk "gid_number" "posixGroup"]
      else errs)
    []

lemma validateObjectClasses_foldl (st : GroupState) (l : List String)
    (acc : List ValidationError) :
    l.foldl
        (fun errs oc =>
          if oc = "posixGroup" then
            if getOkInt st.gid_number then errs
            else errs ++ [ValidationError.mk "gid_number" "posixGroup"]
          else errs)
        acc
      = acc ++ (if getOkInt st.gid_number then []
          else (l.filter (fun oc => oc == "posixGroup")).map
            (fun _ => ValidationError.mk "gid_number" "posixGroup")) := by
  induction l generalizing acc with
  | nil => simp
  | cons oc l ih =>
      rw [List.foldl_cons, ih]
      by_cases h1 : oc = "posixGroup"
      · by_cases h2 : getOkInt st.gid_number
        · simp [h1, h2]
        · simp [h1, h2]
      · simp [h1]

lemma validateObjectClasses_eq (ocs : List String) (st : GroupState) :
    validateObjectClasses ocs st
      = if getOkInt st.gid_number then []
        else (ocs.filter (fun oc => oc == "posixGroup")).map
          (fun _ => ValidationError.mk "gid_number" "posixGroup") := by
  rw [validateObjectClasses, validateObjectClasses_foldl]
  simp

/-- C6: required-attribute validation accumulates one error per violated
object-class constraint instead of failing at the first: `["posixGroup"]`
with no `gid_number` present yields exactly one error referencing
`gid_number` and `posixGroup`, the same list with `gid_number` supplied
yields zero errors, and in general the number of errors equals the number
of violated constraints while every error references `gid_number` and
`posixGroup`. -/
theorem validateObjectClasses_per_violation :
    (∀ st : GroupState, getOkInt st.gid_number = false →
      validateObjectClasses ["posixGroup"] st
        = [ValidationError.mk "gid_number" "posixGroup"])
  ∧ (∀ st : GroupState, getOkInt st.gid_number = true →
      validateObjectClasses ["posixGroup"] st = [])
  ∧ (∀ (ocs : List String) (st : GroupState),
      (validateObjectClasses ocs st).length
        = if getOkInt st.gid_number then 0 else ocs.count "posixGroup")
  ∧ (∀ (ocs : List String) (st : GroupState),
      ∀ e ∈ validateObjectClasses ocs st,
        e = ValidationError.mk "gid_number" "posixGroup") := by
  refine ⟨?_, ?_, ?_, ?_⟩
  · intro st hg
    rw [validateObjectClasses_eq, if_neg (by simp [hg])]
    simp
  · intro st hg
    rw [validateObjectClasses_eq, if_pos hg]
  · intro ocs st
    rw [validateObjectClasses_eq]
    by_cases hg : getOkInt st.gid_number
    · simp [hg]
    · rw [Bool.not_eq_true] at hg
      rw [List.count_eq_countP, List.countP_eq_length_filter]
      simp [hg]
  · intro ocs st e he
    by_cases hg : getOkInt st.gid_number
    · rw [validateObjectClasses_eq, if_pos hg] at he
      simp at he
    · rw [Bool.not_eq_true] at hg
      rw [validateObjectClasses_eq, if_neg (by simp [hg])] at he
      obtain ⟨_, _, hmap⟩ := List.mem_map.mp he
      exact hmap.symm

/-- Witness for C6: the spec's validation scenario — `["posixGroup"]` with
`gid_number` absent gives exactly the one error, and with `gid_number`
supplied gives none. -/
theorem validateObjectClasses_per_violation_witness :
    validateObjectClasses ["posixGroup"]
        (GroupState.mk "" "cn=g,dc=example,dc=com" "" 0 [] [] [] [] [] [])
      = [ValidationError.mk "gid_number" "posixGroup"]
  ∧ validateObjectClasses ["posixGroup"]
        (GroupState.mk "" "cn=g,dc=example,dc=com" "" 1000 [] [] [] [] [] [])
      = [] :=
  ⟨validateObjectClasses_per_violation.1
      (GroupState.mk "" "cn=g,dc=example,dc=com" "" 0 [] [] [] [] [] [])
      (by decide),
   validateObjectClasses_per_violation.2.1
      (GroupState.mk "" "cn=g,dc=example,dc=com" "" 1000 [] [] [] [] [] [])
      (by decide)⟩

/-- The leading comma-separated component of a DN
(`strings.SplitN(dn, ",", 2)[0]`). -/
def firstComponent (dn : String) : String :=
  String.mk (dn.data.takeWhile (fun c => c ≠ ','))

/-- `strings.ToUpper`, embedded on the character list. -/
def strToUpper (s : String) : String :=
  String.mk (s.data.map Char.toUpper)

/-- `deriveCNFromDN` (source lines 445–457): take the DN's leading
comma-separated component; when it carries a case-insensitive `CN=`
prefix, return the text after those three characters, otherwise fail with
`CN not found in DN`. -/
def deriveCNFromDN (dn : String) : Except String String :=
  if strStartsWith (strToUpper (firstComponent dn)) "CN=" then
    Except.ok (String.mk ((firstComponent dn).data.drop 3))
  else Except.error "CN not found in DN"

/-- The object-class list the create uses: `GetOk` on the set is false
when it is empty, in which case the default `["posixGroup"]` applies
(source lines 106–115). -/
def effectiveObjectClasses (st : GroupState) : List String :=
  if st.object_classes.isEmpty then ["posixGroup"] else st.object_classes

/-- The per-name accumulation of the generic `attributes` entries done by
the create (source lines 159–177): group singleton entries by name,
values in list order. -/
def groupAttributes (entries : List (String × String)) :
    List (String × List String) :=
  entries.foldl
    (fun acc e =>
      if acc.any (fun p => p.1 == e.1) then
        acc.map (fun p => if p.1 == e.1 then (p.1, p.2 ++ [e.2]) else p)
      else acc ++ [(e.1, [e.2])])
    []

/-- An `ldap.AddRequest`: the DN and the attributes in the order they were
attached. -/
structure AddRequest where
  dn : String
  attributes : List (String × List String)
deriving DecidableEq, Repr

/-- The attribute list attached by `resourceLDAPGroupCreate` (source lines
122–177): objectClass, the derived cn, then each well-known attribute the
state presents, then the grouped generic attributes. -/
def buildAttributes (st : GroupState) (objectClasses : List String)
    (cn : String) : List (String × List String) :=
  [("objectClass", objectClasses), ("cn", [cn])]
    ++ (if getOkString st.description then [("description", [st.description])]
        else [])
    ++ (if getOkInt st.gid_number then [("gidNumber", [toString st.gid_number])]
        else [])
    ++ (if st.member_uid.length > 0 then [("memberUid", st.member_uid)] else [])
    ++ (if st.unique_member.length > 0 then [("uniqueMember", st.unique_member)]
        else [])
    ++ (if st.member_url.length > 0 then [("memberURL", st.member_url)] else [])
    ++ (if st.member.length > 0 then [("member", st.member)] else [])
    ++ groupAttributes st.attributes

/-- `resourceLDAPGroupCreate` (source lines 97–192) up to the protocol
boundary: validate the object classes, derive the CN, and assemble the Add
request; a validation failure or a malformed DN yields an error
instead. -/
def resourceLDAPGroupCreate (st : GroupState) : Except String AddRequest :=
  if (validateObjectClasses (effectiveObjectClasses st) st).length > 0 then
    Except.error ("validation failed for DN " ++ st.dn)
  else
    match deriveCNFromDN st.dn with
    | Except.error e => Except.error e
    | Except.ok cn =>
        Except.ok
          (AddRequest.mk st.dn (buildAttributes st (effectiveObjectClasses st) cn))

/-- A protocol call issued over the directory connection. -/
inductive ProtocolCall
  | add (req : AddRequest)
  | search (dn : String)
deriving DecidableEq, Repr

/-- Protocol calls the create issues: none when it fails before the
protocol boundary, otherwise the Add followed by the refresh read's
search. -/
def resourceLDAPGroupCreateCalls (st : GroupState) : List ProtocolCall :=
  match resourceLDAPGroupCreate st with
  | Except.ok req => [ProtocolCall.add req, ProtocolCall.search st.dn]
  | Except.error _ => []

/-- C7: a create on which validation fails or the CN derivation rejects
the DN returns an error and issues no protocol call at all. -/
theorem create_error_issues_no_calls (st : GroupState)
    (h : validateObjectClasses (effectiveObjectClasses st) st ≠ []
       ∨ ∃ e, deriveCNFromDN st.dn = Except.error e) :
    (∃ e, resourceLDAPGroupCreate st = Except.error e)
  ∧ resourceLDAPGroupCreateCalls st = [] := by
  have hres : ∃ e, resourceLDAPGroupCreate st = Except.error e := by
    rcases h with h | ⟨e, he⟩
    · refine ⟨"validation failed for DN " ++ st.dn, ?_⟩
      simp [resourceLDAPGroupCreate, List.length_pos.mpr h]
    · by_cases hv :
        0 < (validateObjectClasses (effectiveObjectClasses st) st).length
      · refine ⟨"validation failed for DN " ++ st.dn, ?_⟩
        simp [resourceLDAPGroupCreate, hv]
      · exact ⟨e, by simp [resourceLDAPGroupCreate, hv, he]⟩
  obtain ⟨e, he⟩ := hres
  refine ⟨⟨e, he⟩, ?_⟩
  rw [resourceLDAPGroupCreateCalls, he]

/-- Witness for C7: the spec scenario — DN `ou=users,dc=example,dc=com`
(no leading `cn=`), validation passing, performs zero protocol calls. -/
theorem create_error_issues_no_calls_witness :
    resourceLDAPGroupCreateCalls
        (GroupState.mk "" "ou=users,dc=example,dc=com" "" 1000 [] [] [] [] []
          ["posixGroup"])
      = [] :=
  (create_error_issues_no_calls
      (GroupState.mk "" "ou=users,dc=example,dc=com" "" 1000 [] [] [] [] []
        ["posixGroup"])
      (Or.inr ⟨"CN not found in DN", rfl⟩)).2

/-- C8: deriving the CN from the DN fails exactly when the DN's leading
comma-separated component does not start with a (case-insensitive) `cn=`
pair; on success the derived CN is the text of the leading component after
those three characters, and a successful create request carries both the
objectClass attribute and the derived cn attribute. -/
theorem deriveCNFromDN_spec :
    (∀ dn, (∃ cn, deriveCNFromDN dn = Except.ok cn)
        ↔ strStartsWith (strToUpper (firstComponent dn)) "CN=" = true)
  ∧ (∀ dn cn, deriveCNFromDN dn = Except.ok cn
        → cn = String.mk ((firstComponent dn).data.drop 3))
  ∧ (∀ (st : GroupState) (req : AddRequest),
      resourceLDAPGroupCreate st = Except.ok req
        → ∃ cn, deriveCNFromDN st.dn = Except.ok cn
            ∧ ("objectClass", effectiveObjectClasses st) ∈ req.attributes
            ∧ ("cn", [cn]) ∈ req.attributes) := by
  refine ⟨?_, ?_, ?_⟩
  · intro dn
    by_cases h : strStartsWith (strToUpper (firstComponent dn)) "CN=" = true
    · simp [deriveCNFromDN, h]
    · simp [deriveCNFromDN, h]
  · intro dn cn h
    rw [deriveCNFromDN] at h
    split at h
    · cases h
      rfl
    · cases h
  · intro st req h
    rw [resourceLDAPGroupCreate] at h
    split at h
    · cases h
    · split at h
      · cases h
      · rename_i cn heq
        cases h
        exact ⟨cn, heq, by simp [buildAttributes], by simp [buildAttributes]⟩

/-- Witness for C8: `cn=mygroup,ou=users,dc=example,dc=com` derives the CN
`mygroup`, and a concrete successful create carries the objectClass and cn
attributes. -/
theorem deriveCNFromDN_spec_witness :
    "mygroup"
      = String.mk
          ((firstComponent "cn=mygroup,ou=users,dc=example,dc=com").data.drop 3)
  ∧ ∃ cn, deriveCNFromDN "cn=mygroup,dc=example,dc=com" = Except.ok cn
      ∧ ("objectClass",
          effectiveObjectClasses
            (GroupState.mk "" "cn=mygroup,dc=example,dc=com" "" 1000
              [] [] [] [] [] []))
          ∈ (AddRequest.mk "cn=mygroup,dc=example,dc=com"
              [("objectClass", ["posixGroup"]), ("cn", ["mygroup"]),
               ("gidNumber", ["1000"])]).attributes
      ∧ ("cn", [cn])
          ∈ (AddRequest.mk "cn=mygroup,dc=example,dc=com"
              [("objectClass", ["posixGroup"]), ("cn", ["mygroup"]),
               ("gidNumber", ["1000"])]).attributes :=
  ⟨deriveCNFromDN_spec.2.1 "cn=mygroup,ou=users,dc=example,dc=com" "mygroup" rfl,
   deriveCNFromDN_spec.2.2
      (GroupState.mk "" "cn=mygroup,dc=example,dc=com" "" 1000 [] [] [] [] [] [])
      (AddRequest.mk "cn=mygroup,dc=example,dc=com"
        [("objectClass", ["posixGroup"]), ("cn", ["mygroup"]),
         ("gidNumber", ["1000"])])
      rfl⟩

/-- C10: a create whose desired state supplies no object-class list runs
with the default `["posixGroup"]`: with `gid_number` absent the create
fails before any protocol call, and with `gid_number` present it sends
`objectClass = ["posixGroup"]`. -/
theorem create_defaults_objectClasses (st : GroupState)
    (h : st.object_classes = []) :
    (getOkInt st.gid_number = false →
      (∃ e, resourceLDAPGroupCreate st = Except.error e)
      ∧ resourceLDAPGroupCreateCalls st = [])
  ∧ (getOkInt st.gid_number = true →
      ∀ cn, deriveCNFromDN st.dn = Except.ok cn →
        resourceLDAPGroupCreate st
          = Except.ok
              (AddRequest.mk st.dn (buildAttributes st ["posixGroup"] cn))
        ∧ ("objectClass", ["posixGroup"]) ∈ buildAttributes st ["posixGroup"] cn) := by
  have hocs : effectiveObjectClasses st = ["posixGroup"] := by
    simp [effectiveObjectClasses, h]
  constructor
  · intro hg
    have hval : validateObjectClasses (effectiveObjectClasses st) st
        = [ValidationError.mk "gid_number" "posixGroup"] := by
      rw [hocs, validateObjectClasses_eq, if_neg (by simp [hg])]
      simp
    have hcr : resourceLDAPGroupCreate st
        = Except.error ("validation failed for DN " ++ st.dn) := by
      rw [resourceLDAPGroupCreate, if_pos (by simp [hval])]
    refine ⟨⟨_, hcr⟩, ?_⟩
    rw [resourceLDAPGroupCreateCalls, hcr]
  · intro hg cn hcn
    have hval : validateObjectClasses (effectiveObjectClasses st) st = [] := by
      rw [hocs, validateObjectClasses_eq, if_pos hg]
    have hcr : resourceLDAPGroupCreate st
        = Except.ok (AddRequest.mk st.dn (buildAttributes st ["posixGroup"] cn)) := by
      rw [resourceLDAPGroupCreate, if_neg (by simp [hval]), hcn, ← hocs]
    exact ⟨hcr, by simp [buildAttributes]⟩

/-- Witness for C10: omitting `object_classes` with `gid_number` absent
performs zero protocol calls; with `gid_number = 1000` the create succeeds
and sends `objectClass = ["posixGroup"]`. -/
theorem create_defaults_objectClasses_witness :
    resourceLDAPGroupCreateCalls
        (GroupState.mk "" "cn=g,dc=example,dc=com" "" 0 [] [] [] [] [] []) = []
  ∧ ("objectClass", ["posixGroup"])
      ∈ buildAttributes
          (GroupState.mk "" "cn=g,dc=example,dc=com" "" 1000 [] [] [] [] [] [])
          ["posixGroup"] "g" :=
  ⟨((create_defaults_objectClasses
        (GroupState.mk "" "cn=g,dc=example,dc=com" "" 0 [] [] [] [] [] [])
        rfl).1 (by decide)).2,
   ((create_defaults_objectClasses
        (GroupState.mk "" "cn=g,dc=example,dc=com" "" 1000 [] [] [] [] [] [])
        rfl).2 (by decide) "g" rfl).2⟩

end LdapGroup
